import Mathlib

/-!
Verification of the kube-secrets listing tool (src/main.rs).

The Rust program fetches the Secret resources of a namespace, filters them
with the pure predicate display_secret, prints the decoded key/value payload
of each surviving secret, and, when zero key/value entries were rendered,
runs a namespace-existence diagnostic.  We embed the data model and those
functions shallowly: machine strings stay String, byte payloads become
List Nat (one Nat per byte), the BTreeMap payload container becomes the
association list it iterates as, Option fields keep their Option type, and
a Rust unwrap on a missing field (a panic) is modelled as an error outcome
threaded as Option / Except.  External API calls are inputs of type Except,
mirroring the two awaited fallible calls of main.
-/

/-- Run parameters, from the clap-derived Config struct: show_all flag,
required namespace, optional substring query.  The Rust field holding the
namespace is called namespace, which Lean reserves, hence the underscore. -/
structure Config where
  show_all : Bool
  namespace_ : String
  query : Option String
deriving DecidableEq

/-- The metadata of a fetched Kubernetes object: only the name field is
consulted by the program.  It is optional in the wire type. -/
structure ObjectMeta where
  name : Option String
deriving DecidableEq

/-- A fetched Secret: optional metadata.name, optional type_, and the
optional data payload.  The payload container in k8s-openapi is a
BTreeMap from String to ByteString; we embed it as the association list
the program iterates, each value a list of bytes. -/
structure Secret where
  metadata : ObjectMeta
  type_ : Option String
  data : Option (List (String × List Nat))
deriving DecidableEq

/-- Whether pat occurs at the start of s, comparing characters exactly
(the character-level reading of byte-prefix matching on UTF-8 text). -/
def prefix_match : List Char → List Char → Bool
  | [], _ => true
  | _ :: _, [] => false
  | p :: ps, c :: cs => p == c && prefix_match ps cs

/-- Whether pat occurs contiguously anywhere inside s: the semantics of
Rust str::contains with a string pattern (plain substring search). -/
def contains_sub (pat : List Char) : List Char → Bool
  | [] => prefix_match pat []
  | c :: cs => prefix_match pat (c :: cs) || contains_sub pat cs

/-- String-level substring containment: s.contains(pat) of Rust. -/
def str_contains (s pat : String) : Bool :=
  contains_sub pat.toList s.toList

/-- display_secret from src/main.rs, the SecretFilter predicate.  The Rust
body reads `c.show_all || s.type_.as_ref().unwrap() == "Opaque"`; the
short-circuit of || means the type field is unwrapped only when show_all
is false, and the name field is unwrapped only when a query is present.
A panicking unwrap of a missing field is modelled as the outcome none. -/
def display_secret (c : Config) (s : Secret) : Option Bool :=
  let query_gate : Option Bool :=
    match c.query with
    | none => some true
    | some q =>
      match s.metadata.name with
      | none => none
      | some secret_name =>
        if str_contains secret_name q then some true else some false
  if c.show_all then
    query_gate
  else
    match s.type_ with
    | none => none
    | some t => if t == "Opaque" then query_gate else some false

/-- Whether a byte is a UTF-8 continuation byte (0x80 to 0xBF). -/
def is_cont (b : Nat) : Bool := 0x80 ≤ b && b ≤ 0xBF

/-- UTF-8 decoding of a byte list, the semantics of std::str::from_utf8:
some of the decoded characters when the bytes are valid UTF-8 (rejecting
overlong forms, surrogates and values above 0x10FFFF), none otherwise. -/
def utf8_decode : List Nat → Option (List Char)
  | [] => some []
  | b :: l =>
    if b ≤ 0x7F then
      match utf8_decode l with
      | some cs => some (Char.ofNat b :: cs)
      | none => none
    else if 0xC2 ≤ b && b ≤ 0xDF then
      match l with
      | c1 :: l2 =>
        if is_cont c1 then
          match utf8_decode l2 with
          | some cs => some (Char.ofNat ((b - 0xC0) * 0x40 + (c1 - 0x80)) :: cs)
          | none => none
        else none
      | [] => none
    else if 0xE0 ≤ b && b ≤ 0xEF then
      match l with
      | c1 :: c2 :: l2 =>
        let first_ok : Bool :=
          if b == 0xE0 then 0xA0 ≤ c1 && c1 ≤ 0xBF
          else if b == 0xED then 0x80 ≤ c1 && c1 ≤ 0x9F
          else is_cont c1
        if first_ok && is_cont c2 then
          match utf8_decode l2 with
          | some cs =>
              some (Char.ofNat ((b - 0xE0) * 0x1000 + (c1 - 0x80) * 0x40 + (c2 - 0x80)) :: cs)
          | none => none
        else none
      | _ => none
    else if 0xF0 ≤ b && b ≤ 0xF4 then
      match l with
      | c1 :: c2 :: c3 :: l2 =>
        let first_ok : Bool :=
          if b == 0xF0 then 0x90 ≤ c1 && c1 ≤ 0xBF
          else if b == 0xF4 then 0x80 ≤ c1 && c1 ≤ 0x8F
          else is_cont c1
        if first_ok && is_cont c2 && is_cont c3 then
          match utf8_decode l2 with
          | some cs =>
              some (Char.ofNat
                ((b - 0xF0) * 0x40000 + (c1 - 0x80) * 0x1000 +
                  (c2 - 0x80) * 0x40 + (c3 - 0x80)) :: cs)
          | none => none
        else none
      | _ => none
    else none

/-- The stdout line printed for one data entry (key, value bytes), colour
styling stripped: the decoded text when the bytes are valid UTF-8, the
literal placeholder otherwise. -/
def entry_line (kv : String × List Nat) : String :=
  match utf8_decode kv.2 with
  | some cs => "  " ++ kv.1 ++ ": " ++ String.mk cs
  | none => "  " ++ kv.1 ++ ": <unable to decode UTF-8>"

/-- The inner rendering loop of main over one secret's data entries:
prints one entry_line per entry and increments found_secrets once per
entry.  acc is the stdout transcript so far, count the running total. -/
def data_loop (acc : List String) (count : Nat) :
    List (String × List Nat) → List String × Nat
  | [] => (acc, count)
  | kv :: rest => data_loop (acc ++ [entry_line kv]) (count + 1) rest

/-- The outer loop of main over the fetched secrets: filter with
display_secret, print the name header, the data lines and a blank
separator line for each approved secret.  An unwrap panic (missing type
consulted by the filter, or missing name of an approved secret) aborts
with the transcript printed so far, as Except.error. -/
def secrets_loop (c : Config) (acc : List String) (count : Nat) :
    List Secret → Except (List String) (List String × Nat)
  | [] => Except.ok (acc, count)
  | s :: rest =>
    match display_secret c s with
    | none => Except.error acc
    | some false => secrets_loop c acc count rest
    | some true =>
      match s.metadata.name with
      | none => Except.error acc
      | some n =>
        let hdr := acc ++ [n ++ ":"]
        let step : List String × Nat :=
          match s.data with
          | some d => data_loop hdr count d
          | none => (hdr, count)
        secrets_loop c (step.1 ++ [""]) step.2 rest

/-- The namespace-existence scan of main: walks the cluster's namespace
list, unwrapping each metadata.name (none models the unwrap panic),
stopping at the first name equal to the target. -/
def ns_loop (target : String) : List ObjectMeta → Option Bool
  | [] => some false
  | m :: rest =>
    match m.name with
    | none => none
    | some n => if n == target then some true else ns_loop target rest

/-- A single-quote character as a string, used by the diagnostic texts. -/
def squote : String := String.singleton (Char.ofNat 39)

/-- Diagnostic printed when the namespace exists but zero entries were
rendered. -/
def no_secrets_msg (ns : String) : String :=
  "No secrets found in namespace " ++ squote ++ ns ++ squote

/-- Diagnostic printed when no cluster namespace matches the target. -/
def not_exist_msg (ns : String) : String :=
  "Namespace " ++ squote ++ ns ++ squote ++
    " does not exist. Maybe you" ++ squote ++ "re looking at the wrong cluster?"

/-- Outcome of one run of main: ok carries the stdout transcript of a run
that exits with status zero; err carries the transcript printed before an
external API call failed (the error propagates through anyhow and the
process exits non-zero); panicked carries the transcript printed before a
missing-field unwrap aborted the process. -/
inductive RunResult where
  | ok : List String → RunResult
  | err : List String → String → RunResult
  | panicked : List String → RunResult
deriving DecidableEq

/-- main from src/main.rs.  The two external calls are inputs: sec_result
is the awaited list of the namespace's secrets, ns_result the awaited
list of all namespaces (consulted only when zero entries were rendered).
Either call failing aborts the run with that error. -/
def run_main (c : Config) (sec_result : Except String (List Secret))
    (ns_result : Except String (List ObjectMeta)) : RunResult :=
  match sec_result with
  | Except.error e => RunResult.err [] e
  | Except.ok secrets =>
    match secrets_loop c [] 0 secrets with
    | Except.error lines => RunResult.panicked lines
    | Except.ok (lines, found_secrets) =>
      if found_secrets == 0 then
        match ns_result with
        | Except.error e => RunResult.err lines e
        | Except.ok nss =>
          match ns_loop c.namespace_ nss with
          | none => RunResult.panicked lines
          | some true => RunResult.ok (lines ++ [no_secrets_msg c.namespace_])
          | some false => RunResult.ok (lines ++ [not_exist_msg c.namespace_])
      else RunResult.ok lines

/-! ### Helper lemmas about the embedded operations -/

theorem prefix_match_iff (p : List Char) :
    ∀ s : List Char, prefix_match p s = true ↔ ∃ t, s = p ++ t := by
  induction p with
  | nil =>
    intro s
    simp [prefix_match]
  | cons a as ih =>
    intro s
    cases s with
    | nil =>
      simp [prefix_match]
    | cons b bs =>
      simp only [prefix_match, Bool.and_eq_true, beq_iff_eq, ih, List.cons_append,
        List.cons.injEq]
      constructor
      · rintro ⟨hab, t, ht⟩
        exact ⟨t, hab.symm, ht⟩
      · rintro ⟨t, hab, ht⟩
        exact ⟨hab.symm, t, ht⟩

theorem contains_sub_iff (p : List Char) :
    ∀ s : List Char, contains_sub p s = true ↔ ∃ pre post, s = pre ++ p ++ post := by
  intro s
  induction s with
  | nil =>
    simp only [contains_sub, prefix_match_iff]
    constructor
    · rintro ⟨t, ht⟩
      exact ⟨[], t, ht⟩
    · rintro ⟨pre, post, h⟩
      rcases List.append_eq_nil.mp h.symm with ⟨h1, h2⟩
      rcases List.append_eq_nil.mp h1 with ⟨h3, h4⟩
      exact ⟨[], by simp [h4]⟩
  | cons c cs ih =>
    simp only [contains_sub, Bool.or_eq_true, prefix_match_iff, ih]
    constructor
    · rintro (⟨t, ht⟩ | ⟨pre, post, h⟩)
      · exact ⟨[], t, by simp [ht]⟩
      · exact ⟨c :: pre, post, by simp [h]⟩
    · rintro ⟨pre, post, h⟩
      cases pre with
      | nil => exact Or.inl ⟨post, by simpa using h⟩
      | cons x xs =>
        right
        refine ⟨xs, post, ?_⟩
        have h2 : c = x ∧ cs = xs ++ p ++ post := by simpa using h
        exact h2.2

theorem str_contains_iff (s pat : String) :
    str_contains s pat = true ↔ ∃ pre post, s.toList = pre ++ pat.toList ++ post := by
  exact contains_sub_iff pat.toList s.toList

theorem str_contains_empty (s : String) : str_contains s "" = true := by
  rw [str_contains_iff]
  exact ⟨[], s.toList, by simp [String.toList]⟩

theorem data_loop_spec (d : List (String × List Nat)) :
    ∀ acc count, data_loop acc count d = (acc ++ d.map entry_line, count + d.length) := by
  induction d with
  | nil => intro acc count; simp [data_loop]
  | cons kv rest ih =>
    intro acc count
    rw [data_loop, ih]
    simp [List.append_assoc]
    omega

theorem ns_loop_present (target : String) (nss : List ObjectMeta)
    (h : ∀ m ∈ nss, m.name ≠ none) :
    ns_loop target nss = some (nss.any fun m => m.name == some target) := by
  induction nss with
  | nil => simp [ns_loop]
  | cons m rest ih =>
    cases hm : m.name with
    | none => exact absurd hm (h m (List.mem_cons_self m rest))
    | some n =>
      have hrest := ih fun x hx => h x (List.mem_cons_of_mem _ hx)
      by_cases hn : n = target
      · subst hn
        simp [ns_loop, hm]
      · simp only [ns_loop, hm, List.any_cons]
        rw [if_neg (by simpa using hn), hrest]
        simp [hn]

theorem secrets_loop_displayed_step (c : Config) (s : Secret) (n : String)
    (acc : List String) (count : Nat) (rest : List Secret)
    (hd : display_secret c s = some true) (hn : s.metadata.name = some n) :
    secrets_loop c acc count (s :: rest) =
      secrets_loop c (acc ++ [n ++ ":"] ++ (s.data.getD []).map entry_line ++ [""])
        (count + (s.data.getD []).length) rest := by
  cases hdata : s.data with
  | none => simp [secrets_loop, hd, hn, hdata]
  | some d =>
    simp [secrets_loop, hd, hn, hdata, data_loop_spec, List.append_assoc]

/-- The shape every line printed by the rendering loops has: the blank
separator, an indented data-entry line, or a name header ending in a
colon.  The two diagnostic messages have none of these shapes. -/
def benign_line (l : String) : Prop :=
  l = "" ∨ (∃ k, l = "  " ++ k) ∨ (∃ n, l = n ++ ":")

theorem string_append_assoc (a b c : String) : a ++ b ++ c = a ++ (b ++ c) := by
  rw [String.ext_iff]
  simp [List.append_assoc]

theorem entry_line_benign (kv : String × List Nat) : benign_line (entry_line kv) := by
  cases hu : utf8_decode kv.2 with
  | none =>
    simp only [entry_line, hu]
    exact Or.inr (Or.inl ⟨kv.1 ++ ": <unable to decode UTF-8>", string_append_assoc _ _ _⟩)
  | some cs =>
    simp only [entry_line, hu]
    refine Or.inr (Or.inl ⟨kv.1 ++ (": " ++ String.mk cs), ?_⟩)
    rw [string_append_assoc, string_append_assoc]

theorem secrets_loop_lines_benign (c : Config) (ss : List Secret) :
    ∀ acc count lines cnt,
      (∀ l ∈ acc, benign_line l) →
      secrets_loop c acc count ss = Except.ok (lines, cnt) →
      ∀ l ∈ lines, benign_line l := by
  induction ss with
  | nil =>
    intro acc count lines cnt hacc h
    rw [secrets_loop] at h
    injection h with h
    injection h with h1 h2
    exact h1 ▸ hacc
  | cons s rest ih =>
    intro acc count lines cnt hacc h
    cases hd : display_secret c s with
    | none =>
      rw [secrets_loop, hd] at h
      exact absurd h (by simp)
    | some b =>
      cases b with
      | false =>
        rw [secrets_loop, hd] at h
        exact ih acc count lines cnt hacc h
      | true =>
        cases hn : s.metadata.name with
        | none =>
          rw [secrets_loop, hd, hn] at h
          exact absurd h (by simp)
        | some n =>
          cases hdata : s.data with
          | none =>
            simp only [secrets_loop, hd, hn, hdata] at h
            refine ih _ _ lines cnt ?_ h
            intro l hl
            simp only [List.mem_append, List.mem_singleton] at hl
            rcases hl with (hl | hl) | hl
            · exact hacc l hl
            · exact hl ▸ Or.inr (Or.inr ⟨n, rfl⟩)
            · exact hl ▸ Or.inl rfl
          | some d =>
            simp only [secrets_loop, hd, hn, hdata, data_loop_spec] at h
            refine ih _ _ lines cnt ?_ h
            intro l hl
            simp only [List.mem_append, List.mem_singleton, List.mem_map] at hl
            rcases hl with ((hl | hl) | ⟨kv, _, hkv⟩) | hl
            · exact hacc l hl
            · exact hl ▸ Or.inr (Or.inr ⟨n, rfl⟩)
            · exact hkv ▸ entry_line_benign kv
            · exact hl ▸ Or.inl rfl

theorem not_exist_msg_head (ns : String) :
    (not_exist_msg ns).data.head? = some (Char.ofNat 78) := by
  simp [not_exist_msg, squote]

theorem not_exist_msg_last (ns : String) :
    (not_exist_msg ns).data.getLast? = some (Char.ofNat 63) := by
  have h1 : not_exist_msg ns =
      ("Namespace " ++ squote ++ ns ++ squote ++ " does not exist. Maybe you" ++ squote) ++
        "re looking at the wrong cluster?" := rfl
  rw [h1, String.data_append, List.getLast?_append]
  have h2 : ("re looking at the wrong cluster?" : String).data.getLast? =
      some (Char.ofNat 63) := by decide
  rw [h2]
  rfl

theorem benign_ne_not_exist (ns l : String) (hb : benign_line l) :
    l ≠ not_exist_msg ns := by
  intro he
  rcases hb with hb | ⟨k, hb⟩ | ⟨n, hb⟩
  · have hhead := not_exist_msg_head ns
    rw [← he, hb] at hhead
    exact absurd hhead (by decide)
  · have hhead := not_exist_msg_head ns
    rw [← he, hb] at hhead
    have h2 : (("  " : String) ++ k).data.head? = some (Char.ofNat 32) := by
      rw [String.data_append]
      rfl
    rw [h2] at hhead
    exact absurd hhead (by decide)
  · have hlast := not_exist_msg_last ns
    rw [← he, hb] at hlast
    have h2 : ((n : String) ++ ":").data.getLast? = some (Char.ofNat 58) := by
      rw [String.data_append, List.getLast?_append]
      rfl
    rw [h2] at hlast
    exact absurd hlast (by decide)

/-! ### Claim theorems -/

/-- Claim C1: for every Config and every Secret whose type and name
fields are present, display_secret approves exactly when (show_all OR
the type equals Opaque) AND (the query is absent OR the name contains
the query as a case-sensitive substring, i.e. the query character list
occurs contiguously inside the name); in particular, with show_all
false and a non-Opaque type the result is false regardless of the
query. -/
theorem display_secret_filter_spec (c : Config) (s : Secret) (t n : String)
    (ht : s.type_ = some t) (hn : s.metadata.name = some n) :
    display_secret c s =
      some ((c.show_all || t == "Opaque") &&
        (match c.query with
         | none => true
         | some q => str_contains n q)) ∧
    (∀ q : String, str_contains n q = true ↔
      ∃ pre post : List Char, n.toList = pre ++ q.toList ++ post) ∧
    (c.show_all = false → t ≠ "Opaque" → display_secret c s = some false) := by
  refine ⟨?_, fun q => str_contains_iff n q, ?_⟩
  · cases hsa : c.show_all with
    | true =>
      cases hq : c.query with
      | none => simp [display_secret, hsa, hq]
      | some q =>
        cases hsc : str_contains n q <;>
          simp [display_secret, hsa, hq, hn, hsc]
    | false =>
      cases hq : c.query with
      | none =>
        cases hto : (t == "Opaque") <;>
          simp [display_secret, hsa, hq, ht, hto]
      | some q =>
        cases hto : (t == "Opaque") <;>
          cases hsc : str_contains n q <;>
            simp [display_secret, hsa, hq, ht, hto, hn, hsc]
  · intro hsa hto
    have hfalse : (t == "Opaque") = false := by simpa using hto
    simp [display_secret, hsa, ht, hfalse]

/-- Witness: a type-present, name-present secret under a matching
query is approved, via display_secret_filter_spec. -/
theorem display_secret_filter_spec_witness :
    display_secret ⟨false, "default", some "api"⟩
      ⟨⟨some "my-api-credentials"⟩, some "Opaque", none⟩ = some true := by
  have h := display_secret_filter_spec ⟨false, "default", some "api"⟩
    ⟨⟨some "my-api-credentials"⟩, some "Opaque", none⟩ "Opaque" "my-api-credentials" rfl rfl
  rw [h.1]
  decide

/-- Claim C2 counterexample: a fetched secret lacking the type field is
not always met with an error: with show_all set, the short-circuit never
consults the type, and the filter classifies the secret (approves it,
some true) with no error signalled. -/
theorem missing_type_classified_without_error :
    display_secret ⟨true, "default", none⟩ ⟨⟨some "x"⟩, none, none⟩ = some true ∧
    display_secret ⟨true, "default", none⟩ ⟨⟨some "x"⟩, none, none⟩ ≠ none :=
  ⟨rfl, by decide⟩

/-- Claim C2 (amended): the missing-field failure (the unwrap panic,
modelled as the outcome none) is signalled exactly when a missing field
is actually consulted: a missing type with show_all false, or a missing
name when a query is present and the type gate passed.  Whenever the
filter does classify a secret, every field it consulted was present, so
no secret is ever classified through a guessed default. -/
theorem missing_field_error_when_consulted (c : Config) (s : Secret) :
    (c.show_all = false → s.type_ = none → display_secret c s = none) ∧
    (c.query ≠ none → s.metadata.name = none →
      (c.show_all = true ∨ s.type_ = some "Opaque") → display_secret c s = none) ∧
    (∀ b, display_secret c s = some b → c.show_all = false → s.type_ ≠ none) ∧
    (∀ b, display_secret c s = some b → c.query ≠ none →
      (c.show_all = true ∨ s.type_ = some "Opaque") → s.metadata.name ≠ none) := by
  have h1 : c.show_all = false → s.type_ = none → display_secret c s = none := by
    intro hsa ht
    simp [display_secret, hsa, ht]
  have h2 : c.query ≠ none → s.metadata.name = none →
      (c.show_all = true ∨ s.type_ = some "Opaque") → display_secret c s = none := by
    intro hq hn hgate
    obtain ⟨q, hq⟩ := Option.ne_none_iff_exists'.mp hq
    rcases hgate with hsa | ht
    · simp [display_secret, hsa, hq, hn]
    · cases hsa : c.show_all with
      | true => simp [display_secret, hsa, hq, hn]
      | false => simp [display_secret, hsa, ht, hq, hn]
  refine ⟨h1, h2, ?_, ?_⟩
  · intro b hb hsa ht
    rw [h1 hsa ht] at hb
    exact absurd hb (by simp)
  · intro b hb hq hgate hn
    rw [h2 hq hn hgate] at hb
    exact absurd hb (by simp)

/-- Witness: with show_all false, a secret lacking its type field makes
the filter abort with the modelled panic, via
missing_field_error_when_consulted. -/
theorem missing_field_error_when_consulted_witness :
    display_secret ⟨false, "default", none⟩ ⟨⟨some "x"⟩, none, none⟩ = none :=
  (missing_field_error_when_consulted ⟨false, "default", none⟩
    ⟨⟨some "x"⟩, none, none⟩).1 rfl rfl

/-- Claim C6: for a secret whose name is present, a present-but-empty
query behaves identically to an absent query, and approves every secret
that passes the type gate. -/
theorem empty_query_like_absent (c : Config) (s : Secret) (n : String)
    (hn : s.metadata.name = some n) :
    display_secret { c with query := some "" } s =
      display_secret { c with query := none } s ∧
    ((c.show_all = true ∨ s.type_ = some "Opaque") →
      display_secret { c with query := some "" } s = some true) := by
  have hc := str_contains_empty n
  constructor
  · cases hsa : c.show_all with
    | true => simp [display_secret, hsa, hn, hc]
    | false =>
      cases ht : s.type_ with
      | none => simp [display_secret, hsa, ht]
      | some t =>
        cases hto : (t == "Opaque") <;>
          simp [display_secret, hsa, ht, hto, hn, hc]
  · rintro (hsa | ht)
    · simp [display_secret, hsa, hn, hc]
    · cases hsa : c.show_all <;> simp [display_secret, hsa, ht, hn, hc]

/-- Witness: an Opaque secret is approved under the empty-string query,
via empty_query_like_absent. -/
theorem empty_query_like_absent_witness :
    display_secret ⟨false, "default", some ""⟩
      ⟨⟨some "api-token"⟩, some "Opaque", none⟩ = some true :=
  (empty_query_like_absent ⟨false, "default", none⟩
    ⟨⟨some "api-token"⟩, some "Opaque", none⟩ "api-token" rfl).2 (Or.inr rfl)

/-- Claim C9: with show_all true the filter never reads the type field
(the result is invariant under changing it), with no query it never
reads the name field; the modelled unwrap panic is reachable only when
show_all is false (for the type) or a query is present (for the name);
and a secret with an absent type is approved without error whenever
show_all is true and the query, if any, matches the present name. -/
theorem display_secret_short_circuit (c : Config) (s : Secret) :
    (c.show_all = true → ∀ t1 t2 : Option String,
      display_secret c { s with type_ := t1 } =
        display_secret c { s with type_ := t2 }) ∧
    (c.query = none → ∀ m1 m2 : Option String,
      display_secret c { s with metadata := ⟨m1⟩ } =
        display_secret c { s with metadata := ⟨m2⟩ }) ∧
    (display_secret c s = none →
      (c.show_all = false ∧ s.type_ = none) ∨
        (c.query ≠ none ∧ s.metadata.name = none)) ∧
    (c.show_all = true → s.type_ = none → c.query = none →
      display_secret c s = some true) ∧
    (∀ q n, c.show_all = true → s.type_ = none → c.query = some q →
      s.metadata.name = some n → str_contains n q = true →
      display_secret c s = some true) := by
  refine ⟨?_, ?_, ?_, ?_, ?_⟩
  · intro hsa t1 t2
    simp [display_secret, hsa]
  · intro hq m1 m2
    cases hsa : c.show_all with
    | true => simp [display_secret, hsa, hq]
    | false =>
      cases ht : s.type_ with
      | none => simp [display_secret, hsa, ht]
      | some t => cases hto : (t == "Opaque") <;> simp [display_secret, hsa, ht, hto, hq]
  · intro hnone
    cases hsa : c.show_all with
    | true =>
      cases hq : c.query with
      | none => simp [display_secret, hsa, hq] at hnone
      | some q =>
        cases hn : s.metadata.name with
        | none => exact Or.inr ⟨by simp [hq], rfl⟩
        | some n =>
          cases hsc : str_contains n q <;>
            simp [display_secret, hsa, hq, hn, hsc] at hnone
    | false =>
      cases ht : s.type_ with
      | none => exact Or.inl ⟨rfl, rfl⟩
      | some t =>
        cases hto : (t == "Opaque") with
        | false => simp [display_secret, hsa, ht, hto] at hnone
        | true =>
          cases hq : c.query with
          | none => simp [display_secret, hsa, ht, hto, hq] at hnone
          | some q =>
            cases hn : s.metadata.name with
            | none => exact Or.inr ⟨by simp [hq], rfl⟩
            | some n =>
              cases hsc : str_contains n q <;>
                simp [display_secret, hsa, ht, hto, hq, hn, hsc] at hnone
  · intro hsa ht hq
    simp [display_secret, hsa, hq]
  · intro q n hsa ht hq hn hsc
    simp [display_secret, hsa, hq, hn, hsc]

/-- Witness: a type-less secret is approved with show_all true and a
matching query, via display_secret_short_circuit. -/
theorem display_secret_short_circuit_witness :
    display_secret ⟨true, "default", some "ab"⟩ ⟨⟨some "xaby"⟩, none, none⟩ =
      some true :=
  (display_secret_short_circuit ⟨true, "default", some "ab"⟩
    ⟨⟨some "xaby"⟩, none, none⟩).2.2.2.2 "ab" "xaby" rfl rfl rfl rfl (by decide)

/-- Claim C3: for every displayed secret (filter approved, name present)
the run prints the header line first, then one line per data entry,
decoded text for valid UTF-8 values and the placeholder otherwise, then
one blank separator line; the header and the blank line appear even
when the data is absent or empty. -/
theorem rendered_block_structure (c : Config) (s : Secret) (n : String)
    (acc : List String) (count : Nat) (rest : List Secret)
    (hd : display_secret c s = some true) (hn : s.metadata.name = some n) :
    secrets_loop c acc count (s :: rest) =
      secrets_loop c
        (acc ++ [n ++ ":"] ++ (s.data.getD []).map entry_line ++ [""])
        (count + (s.data.getD []).length) rest ∧
    (∀ k v cs, utf8_decode v = some cs →
      entry_line (k, v) = "  " ++ k ++ ": " ++ String.mk cs) ∧
    (∀ k v, utf8_decode v = none →
      entry_line (k, v) = "  " ++ k ++ ": <unable to decode UTF-8>") ∧
    ((s.data = none ∨ s.data = some []) →
      secrets_loop c acc count (s :: rest) =
        secrets_loop c (acc ++ [n ++ ":", ""]) count rest) := by
  refine ⟨secrets_loop_displayed_step c s n acc count rest hd hn, ?_, ?_, ?_⟩
  · intro k v cs hcs
    simp [entry_line, hcs]
  · intro k v hv
    simp [entry_line, hv]
  · intro hempty
    have h := secrets_loop_displayed_step c s n acc count rest hd hn
    rcases hempty with he | he <;>
      · rw [h, he]
        simp

/-- Witness: one displayed Opaque secret with a single decodable entry
renders as header, entry line, blank line, via
rendered_block_structure. -/
theorem rendered_block_structure_witness :
    secrets_loop ⟨false, "default", none⟩ [] 0
      [⟨⟨some "api-token"⟩, some "Opaque", some [("value", [97, 98, 99])]⟩] =
      Except.ok (["api-token:", "  value: abc", ""], 1) := by
  have h := (rendered_block_structure ⟨false, "default", none⟩
    ⟨⟨some "api-token"⟩, some "Opaque", some [("value", [97, 98, 99])]⟩
    "api-token" [] 0 [] (by decide) rfl).1
  rw [h]
  rfl

/-- Claim C4: when the rendered entry total is zero, the run appends
exactly the no-secrets diagnostic if some cluster namespace name equals
the target, and exactly the does-not-exist diagnostic if none does; with
a nonzero total no diagnostic is invoked at all (the namespace list is
never consulted: the result is the same for every ns_result). -/
theorem zero_total_diagnostic (c : Config) (secrets : List Secret)
    (nss : List ObjectMeta) (lines : List String) (count : Nat)
    (hloop : secrets_loop c [] 0 secrets = Except.ok (lines, count))
    (hnames : ∀ m ∈ nss, m.name ≠ none) :
    (count = 0 → (∃ m ∈ nss, m.name = some c.namespace_) →
      run_main c (Except.ok secrets) (Except.ok nss) =
        RunResult.ok (lines ++ [no_secrets_msg c.namespace_])) ∧
    (count = 0 → (∀ m ∈ nss, m.name ≠ some c.namespace_) →
      run_main c (Except.ok secrets) (Except.ok nss) =
        RunResult.ok (lines ++ [not_exist_msg c.namespace_])) ∧
    (count ≠ 0 → ∀ ns_result,
      run_main c (Except.ok secrets) ns_result = RunResult.ok lines) := by
  refine ⟨?_, ?_, ?_⟩
  · intro hc hmem
    subst hc
    have hns := ns_loop_present c.namespace_ nss hnames
    have hany : (nss.any fun m => m.name == some c.namespace_) = true := by
      rw [List.any_eq_true]
      obtain ⟨m, hm, hname⟩ := hmem
      exact ⟨m, hm, by simp [hname]⟩
    rw [hany] at hns
    simp [run_main, hloop, hns]
  · intro hc hnot
    subst hc
    have hns := ns_loop_present c.namespace_ nss hnames
    have hany : (nss.any fun m => m.name == some c.namespace_) = false := by
      rw [List.any_eq_false]
      intro m hm
      simp [hnot m hm]
    rw [hany] at hns
    simp [run_main, hloop, hns]
  · intro hc ns_result
    have hne : (count == 0) = false := by simpa using hc
    simp [run_main, hloop, hne]

/-- Witness: a filtered-out secret gives total zero and the matching
namespace produces the no-secrets diagnostic, via
zero_total_diagnostic. -/
theorem zero_total_diagnostic_witness :
    run_main ⟨false, "default", some "cert"⟩
      (Except.ok [⟨⟨some "api-token"⟩, some "Opaque", some [("value", [97])]⟩])
      (Except.ok [⟨some "default"⟩]) =
      RunResult.ok [no_secrets_msg "default"] := by
  have h := (zero_total_diagnostic ⟨false, "default", some "cert"⟩
    [⟨⟨some "api-token"⟩, some "Opaque", some [("value", [97])]⟩]
    [⟨some "default"⟩] [] 0 rfl (by decide)).1 rfl
    ⟨⟨some "default"⟩, by decide, rfl⟩
  simpa using h

/-- Claim C5: a failing secrets-list call aborts the run at once with a
non-zero-exit outcome and empty output; a failing namespace-list call
after a zero-entry pass aborts with only the rendered transcript, no
line of which is the does-not-exist diagnostic; neither aborted run ever
equals a successful outcome. -/
theorem api_error_aborts (c : Config) (e : String)
    (ns_result : Except String (List ObjectMeta))
    (secrets : List Secret) (lines : List String)
    (hloop : secrets_loop c [] 0 secrets = Except.ok (lines, 0)) :
    run_main c (Except.error e) ns_result = RunResult.err [] e ∧
    run_main c (Except.ok secrets) (Except.error e) = RunResult.err lines e ∧
    (∀ l ∈ lines, l ≠ not_exist_msg c.namespace_) ∧
    (∀ out, run_main c (Except.ok secrets) (Except.error e) ≠ RunResult.ok out) := by
  have hb : ∀ l ∈ lines, benign_line l :=
    secrets_loop_lines_benign c secrets [] 0 lines 0 (by simp) hloop
  refine ⟨rfl, ?_, ?_, ?_⟩
  · simp [run_main, hloop]
  · intro l hl
    exact benign_ne_not_exist c.namespace_ l (hb l hl)
  · intro out
    simp [run_main, hloop]

/-- Witness: with an empty namespace and a failing namespace-list call
the run aborts carrying the error, via api_error_aborts. -/
theorem api_error_aborts_witness :
    run_main ⟨false, "default", none⟩ (Except.ok [])
      (Except.error "connection refused") =
      RunResult.err [] "connection refused" :=
  (api_error_aborts ⟨false, "default", none⟩ "connection refused"
    (Except.error "connection refused") [] [] rfl).2.1

/-- Claim C7: a value whose bytes are not valid UTF-8 is non-fatal: its
line is the placeholder for that key only, every sibling key is still
rendered in place, the placeholder line still counts toward the entry
total (one per entry, bad or good), and a run containing such a value
still completes with the successful outcome. -/
theorem invalid_value_nonfatal (ns n k : String) (v : List Nat)
    (d : List (String × List Nat)) (i : Nat)
    (hget : d[i]? = some (k, v)) (hbad : utf8_decode v = none)
    (acc : List String) (count : Nat) :
    data_loop acc count d = (acc ++ d.map entry_line, count + d.length) ∧
    (d.map entry_line)[i]? = some ("  " ++ k ++ ": <unable to decode UTF-8>") ∧
    (∀ j : Nat, (d.map entry_line)[j]? = (d[j]?).map entry_line) ∧
    run_main ⟨false, ns, none⟩
        (Except.ok [⟨⟨some n⟩, some "Opaque", some d⟩])
        (Except.ok [⟨some ns⟩]) =
      RunResult.ok ([n ++ ":"] ++ d.map entry_line ++ [""]) := by
  refine ⟨data_loop_spec d acc count, ?_, ?_, ?_⟩
  · rw [List.getElem?_map, hget]
    simp [entry_line, hbad]
  · intro j
    rw [List.getElem?_map]
  · have hlt : i < d.length := by
      by_contra hge
      rw [List.getElem?_eq_none (by omega)] at hget
      exact absurd hget (by simp)
    have hne : (d.length == 0) = false := by
      have hz : d.length ≠ 0 := by omega
      simpa using hz
    have hdisp : display_secret ⟨false, ns, none⟩
        ⟨⟨some n⟩, some "Opaque", some d⟩ = some true := by
      simp [display_secret]
    simp [run_main, secrets_loop, hdisp, data_loop_spec, hne]

/-- Witness: a secret with one good and one undecodable value renders
both lines and exits successfully, via invalid_value_nonfatal. -/
theorem invalid_value_nonfatal_witness :
    run_main ⟨false, "default", none⟩
      (Except.ok [⟨⟨some "s1"⟩, some "Opaque",
        some [("good", [97]), ("bad", [255])]⟩])
      (Except.ok [⟨some "default"⟩]) =
      RunResult.ok (["s1:"] ++
        [("good", [97]), ("bad", [255])].map entry_line ++ [""]) :=
  (invalid_value_nonfatal "default" "s1" "bad" [255]
    [("good", [97]), ("bad", [255])] 1 rfl rfl [] 0).2.2.2

/-- Claim C8: the data lines are emitted deterministically in the order
of the data container, and under the BTreeMap invariant (keys strictly
increasing) the rendered keys appear in lexicographically sorted
order. -/
theorem sorted_data_keys (acc : List String) (count : Nat)
    (d : List (String × List Nat))
    (hsorted : List.Chain' (fun a b : String × List Nat => a.1 < b.1) d) :
    (data_loop acc count d).1 = acc ++ d.map entry_line ∧
    (data_loop acc count d).2 = count + d.length ∧
    List.Chain' (· < ·) (d.map Prod.fst) := by
  refine ⟨?_, ?_, ?_⟩
  · rw [data_loop_spec]
  · rw [data_loop_spec]
  · rw [List.chain'_map]
    exact hsorted

/-- Witness: a two-entry sorted map renders its lines in key order, via
sorted_data_keys. -/
theorem sorted_data_keys_witness :
    (data_loop [] 0 [("a", [97]), ("b", [98])]).1 =
      [] ++ [("a", [97]), ("b", [98])].map entry_line := by
  refine (sorted_data_keys [] 0 [("a", [97]), ("b", [98])] ?_).1
  refine List.chain'_cons.mpr ⟨?_, List.chain'_singleton _⟩
  show ("a" : String) < "b"
  rw [String.lt_iff_toList_lt]
  decide

/-- Claim C10: the zero test counts rendered key lines, not displayed
secrets: an approved secret with absent or empty data prints its header
and blank line yet contributes zero, so the no-secrets diagnostic is
emitted right after those header lines. -/
theorem empty_data_still_diagnoses (c : Config) (s : Secret) (n : String)
    (nss : List ObjectMeta)
    (hd : display_secret c s = some true) (hn : s.metadata.name = some n)
    (hempty : s.data = none ∨ s.data = some [])
    (hnames : ∀ m ∈ nss, m.name ≠ none)
    (hmem : ∃ m ∈ nss, m.name = some c.namespace_) :
    run_main c (Except.ok [s]) (Except.ok nss) =
      RunResult.ok ([n ++ ":", ""] ++ [no_secrets_msg c.namespace_]) := by
  have hstep := secrets_loop_displayed_step c s n [] 0 [] hd hn
  have hloop : secrets_loop c [] 0 [s] = Except.ok ([n ++ ":", ""], 0) := by
    rw [hstep]
    rcases hempty with he | he <;>
      · rw [he]
        simp [secrets_loop]
  have hns := ns_loop_present c.namespace_ nss hnames
  have hany : (nss.any fun m => m.name == some c.namespace_) = true := by
    rw [List.any_eq_true]
    obtain ⟨m, hm, hname⟩ := hmem
    exact ⟨m, hm, by simp [hname]⟩
  rw [hany] at hns
  simp [run_main, hloop, hns]

/-- Witness: a displayed secret with no data still triggers the
no-secrets diagnostic after its header block, via
empty_data_still_diagnoses. -/
theorem empty_data_still_diagnoses_witness :
    run_main ⟨false, "default", none⟩
      (Except.ok [⟨⟨some "empty-secret"⟩, some "Opaque", none⟩])
      (Except.ok [⟨some "default"⟩]) =
      RunResult.ok (["empty-secret:", ""] ++ [no_secrets_msg "default"]) :=
  empty_data_still_diagnoses ⟨false, "default", none⟩
    ⟨⟨some "empty-secret"⟩, some "Opaque", none⟩ "empty-secret"
    [⟨some "default"⟩] (by decide) rfl (Or.inl rfl) (by decide)
    ⟨⟨some "default"⟩, by decide, rfl⟩
